import Mathlib

/-!
Verification of the tobacco-heatmap grouping/ordering/threshold pipeline.

The development shallowly embeds the data-shaping core of two Python
scripts, `generate_standalone_heatmap.py` and `tobacco_heatmap_FINAL.py`:
the recipe group tables, the sensory classifier, the order builder, the
threshold filter, and the standalone renderer's color-ramp function
`getColor`.  Matrices are modelled by their row-identifier and
column-identifier lists (all the pipeline inspects), concentrations by
rationals, and JavaScript `NaN` by `Option.none`.
-/

namespace TobaccoHeatmap

/-- An rgba color as produced by the renderer's JavaScript `getColor`:
integer channels plus a rational opacity. -/
structure Rgba where
  r : Int
  g : Int
  b : Int
  a : ℚ
deriving DecidableEq, Repr

/-- The five fixed RGB stops of the `colors` array inside `getColor`
(dark purple, blue-purple, teal, green, yellow). -/
def viridisColors : List (Int × Int × Int) :=
  [(68, 1, 84), (59, 82, 139), (33, 144, 141), (94, 201, 98), (253, 231, 37)]

/-- The neutral background color `rgba(240, 240, 240, opacity)` returned by
`getColor` for non-positive or NaN inputs. -/
def backgroundColor (opacity : ℚ) : Rgba := ⟨240, 240, 240, opacity⟩

/-- JavaScript `Math.round`: round half away from zero toward positive
infinity, i.e. the floor of `q + 1/2`. -/
def jsRound (q : ℚ) : Int := ⌊q + 1 / 2⌋

/-- The ramp branch of `getColor` (the code after the `value <= 0 || isNaN`
guard), applied to the already-clamped `scaledValue`:
`index = scaledValue * (colors.length - 1)`, floor/ceil indices, and linear
interpolation with `Math.round` when the two indices differ. -/
def rampColor (scaledValue : ℚ) (opacity : ℚ) : Rgba :=
  let index : ℚ := scaledValue * ((viridisColors.length - 1 : ℕ) : ℚ)
  let lowerIndex : Int := ⌊index⌋
  let upperIndex : Int := ⌈index⌉
  let fraction : ℚ := index - (lowerIndex : ℚ)
  let c1 := viridisColors.getD lowerIndex.toNat (0, 0, 0)
  if lowerIndex = upperIndex then
    ⟨c1.1, c1.2.1, c1.2.2, opacity⟩
  else
    let c2 := viridisColors.getD upperIndex.toNat (0, 0, 0)
    ⟨jsRound ((c1.1 : ℚ) + ((c2.1 : ℚ) - (c1.1 : ℚ)) * fraction),
     jsRound ((c1.2.1 : ℚ) + ((c2.2.1 : ℚ) - (c1.2.1 : ℚ)) * fraction),
     jsRound ((c1.2.2 : ℚ) + ((c2.2.2 : ℚ) - (c1.2.2 : ℚ)) * fraction),
     opacity⟩

/-- `getColor(value, opacity)` from `generate_standalone_heatmap.py`:
returns the neutral background for `value <= 0` or `NaN` (modelled as
`none`), otherwise clamps the value to `[0, 1]` and colors it on the
five-stop ramp. -/
def getColor (value : Option ℚ) (opacity : ℚ) : Rgba :=
  match value with
  | none => backgroundColor opacity
  | some v =>
    if v ≤ 0 then backgroundColor opacity
    else rampColor (min (max v 0) 1) opacity

/-- How `updateHeatmap` paints one cell: full ramp color, desaturated
inactive gray `#d3d3d3`, or the below-threshold background `#f0f0f0`. -/
inductive CellRender where
  | colored (c : Rgba)
  | inactiveGray
  | hiddenGray
deriving DecidableEq, Repr

/-- One cell of `updateHeatmap` in the standalone page: the cell is
"above threshold" iff `value >= currentThreshold`; above-threshold cells
are painted with `getColor` when some recipes are selected and this
recipe is among them, otherwise desaturated gray; below-threshold cells
get the light-gray background. -/
def updateCell (selectedRecipes : List String) (recipe : String)
    (value currentThreshold : ℚ) : CellRender :=
  if currentThreshold ≤ value then
    if 0 < selectedRecipes.length ∧ recipe ∈ selectedRecipes then
      .colored (getColor (some value) 1)
    else .inactiveGray
  else .hiddenGray

/-- The threshold constant hard-coded in `create_static_heatmap` and
`create_interactive_heatmap` (`df_display[df_display <= 0.45] = np.nan`). -/
def staticThreshold : ℚ := 0.45

/-- The masking step of the static plot: cells with `v <= cutoff` are set
to NaN (`none`) and hence hidden; the rest keep their value. -/
def staticMask (cutoff v : ℚ) : Option ℚ :=
  if v ≤ cutoff then none else some v

/-- The static plot's per-cell display value at its hard-coded cutoff. -/
def staticDisplayCell (v : ℚ) : Option ℚ := staticMask staticThreshold v

/-- The initial value of `currentThreshold` in the standalone page
(`let currentThreshold = 0.4`, matching the input's `value="0.4"`). -/
def currentThresholdInit : ℚ := 0.4

/-- The four renderer variants present in the repository: the standalone
HTML page, the Plotly dropdown-interactive figure
(`create_interactive_heatmap`), the Dash-served figure
(`create_heatmap_figure`), and the static PNG (`create_static_heatmap`). -/
inductive Variant where
  | standaloneHtml
  | plotlyInteractive
  | dashFigure
  | staticPng
deriving DecidableEq, Repr

/-- Which variants are interactive (all but the static PNG export). -/
def isInteractive : Variant → Bool
  | .staticPng => false
  | _ => true

/-- The default/hard-coded visibility cutoff of each variant:
`currentThreshold = 0.4` in the standalone page; `<= 0.45 → NaN` in
`create_interactive_heatmap` and in `create_static_heatmap`; and
`where(heatmap_data > 0, nan)` (cutoff 0) in the Dash figure. -/
def defaultCutoff : Variant → ℚ
  | .standaloneHtml => currentThresholdInit
  | .plotlyInteractive => staticThreshold
  | .dashFigure => 0
  | .staticPng => staticThreshold

/-- The G1–G4 recipe group tables from `define_recipe_groups`, in
declaration order, each with its ordered member list. -/
def tobacco_groups : List (String × List String) :=
  [("G1 - MGO and Filed",
    ["J1 Virginia Tobacco 5%",
     "TOBACCO (VIRGINIA) 5% (+38% FL) E-400360",
     "VIRGINIA TOBACCO 5% (DDS00451B)",
     "(ILLINOIS) TOBACCO VT 5% NFC) DDS00734",
     "TOBACCO(GOLDEN) 5% ( +38% FL) (E-400361)"]),
   ("G2",
    ["RUBY TOBACCO (S2) 3% (40%VG) (E-400518)",
     "PURPLE TOBACCO3% (E-400514)",
     "TOBACCO(AMERICAN) 5% (E-400469)",
     "(OREGON) AMERICAN TOBACCO 5% (CHINA WL) DDS00737"]),
   ("G3",
    ["AUTUMN TOBACCO 3% (E-400519)",
     "TOBACCO (BLONDE) 5% +25% FL (PAB00426B)",
     "SRI LANKA  TOBACCO 5% (E-400451)",
     "VERMONT TOBACCO  5% (E-400454)",
     "(COLORADO) VIRGINIA TOBACCO 5% (DDS00735)",
     "(ARIZONA) BLONDE TOBACCO5% (CHINA WL) DDS00736"]),
   ("G4 - Unique",
    ["Classic Tobacco 5% (345-00006)",
     "CALIFORNIA TOBACCO 5% (E-400452)",
     "Golden Tobacco 5% J1 (345-00124)"])]

/-- The recipe-ordering loop of `organize_data` / `order_data_by_groups`:
for each group in declaration order, append each member present in the
matrix index to `recipe_order`. -/
def recipeOrderOf (groups : List (String × List String))
    (index : List String) : List String :=
  groups.flatMap fun g => g.2.filter fun r => decide (r ∈ index)

/-- The dict assignments `recipe_groups[recipe] = group_name` performed by
the same loop, in execution order (a later assignment overwrites an
earlier one for the same key). -/
def recipeGroupPairs (groups : List (String × List String))
    (index : List String) : List (String × String) :=
  groups.flatMap fun g =>
    (g.2.filter fun r => decide (r ∈ index)).map fun r => (r, g.1)

/-- Python-dict lookup over a list of key/value assignments in execution
order: the value of the last assignment to the key, if any. -/
def lookupLast (l : List (String × String)) (k : String) : Option String :=
  (l.reverse.find? fun p => decide (p.1 = k)).map Prod.snd

/-- The name of the last group in declaration order whose member list
contains the recipe, `none` when no group lists it: a later group's match
takes precedence over an earlier one.  This is the reference value for the
`recipe_groups` dict entry of a recipe listed in several groups. -/
def lastContainingGroup (groups : List (String × List String)) (r : String) :
    Option String :=
  match groups with
  | [] => none
  | g :: gs =>
    (lastContainingGroup gs r).or (if r ∈ g.2 then some g.1 else none)

/-- The keys of the `sensory_groups` dict in `create_sensory_groups`, in
its creation order. -/
def sensoryGroupKeys : List String :=
  ["Sweet", "Light", "Smooth", "Rich", "Dry", "Harsh", "Cooling", "Ungrouped"]

/-- The `sensory_map` building loop: classification rows whose product or
note is missing (`NaN`) are skipped, later rows overwrite earlier ones. -/
def buildSensoryMap (rows : List (Option String × Option String)) :
    List (String × String) :=
  rows.filterMap fun r =>
    match r with
    | (some i, some n) => some (i, n)
    | _ => none

/-- Lookup into the built `sensory_map` dict (last write wins). -/
def sensoryMapOf (rows : List (Option String × Option String)) :
    String → Option String :=
  fun i => lookupLast (buildSensoryMap rows) i

/-- The bucket `create_sensory_groups` appends an ingredient to:
`sensory_map.get(ingredient, 'Ungrouped')` when that note is one of the
dict's keys, and `'Ungrouped'` otherwise. -/
def classifyIngredient (m : String → Option String) (i : String) : String :=
  if (m i).getD "Ungrouped" ∈ sensoryGroupKeys then (m i).getD "Ungrouped"
  else "Ungrouped"

/-- The classifier's output list for one sensory group: the matrix columns
appended to that bucket, in column order (empty for an unknown group name,
since the dict has only the eight fixed keys). -/
def sensoryGroupsOf (cols : List String) (m : String → Option String)
    (g : String) : List String :=
  if g ∈ sensoryGroupKeys then
    cols.filter fun i => decide (classifyIngredient m i = g)
  else []

/-- The fixed traversal order of the seven named sensory groups used by
`organize_data` and `order_data_by_groups` (`sensory_group_order`). -/
def sensory_group_order : List String :=
  ["Sweet", "Dry", "Rich", "Light", "Smooth", "Harsh", "Cooling"]

/-- `ingredient_order` as built by `organize_data` in
`generate_standalone_heatmap.py`: the seven named groups in traversal
order, each filtered to matrix columns, with the `Ungrouped` members
appended at the end. -/
def ingredientOrderStandalone (cols : List String)
    (m : String → Option String) : List String :=
  (sensory_group_order.flatMap fun g =>
    (sensoryGroupsOf cols m g).filter fun i => decide (i ∈ cols)) ++
  ((sensoryGroupsOf cols m "Ungrouped").filter fun i => decide (i ∈ cols))

/-- The dict assignments `ingredient_groups[ingredient] = group_name`
performed by `organize_data`, in execution order. -/
def ingredientGroupPairsStandalone (cols : List String)
    (m : String → Option String) : List (String × String) :=
  (sensory_group_order.flatMap fun g =>
    ((sensoryGroupsOf cols m g).filter fun i => decide (i ∈ cols)).map
      fun i => (i, g)) ++
  (((sensoryGroupsOf cols m "Ungrouped").filter fun i => decide (i ∈ cols)).map
    fun i => (i, "Ungrouped"))

/-- `ingredient_order` as built by `order_data_by_groups` in
`tobacco_heatmap_FINAL.py`: only the seven named groups are traversed;
no `Ungrouped` pass follows. -/
def ingredientOrderFinal (cols : List String)
    (m : String → Option String) : List String :=
  sensory_group_order.flatMap fun g =>
    (sensoryGroupsOf cols m g).filter fun i => decide (i ∈ cols)

/-- The spec's description of `ingredientOrder` (for refinement
comparison): the concatenation of each sensory group's members that exist
in the matrix, over all eight groups taken in the fixed order Sweet, Dry,
Rich, Light, Smooth, Harsh, Cooling, Ungrouped. -/
def ingredientOrderSpec (cols : List String)
    (m : String → Option String) : List String :=
  (sensory_group_order ++ ["Ungrouped"]).flatMap fun g =>
    sensoryGroupsOf cols m g

/-- The pipeline stages of `main` that run after a successful load. -/
inductive PipelineStep where
  | grouping
  | ordering
  | rendering
deriving DecidableEq, Repr

/-- The control flow of `main` in `generate_standalone_heatmap.py`:
`load_and_process_data` yields `(df, sensory_df)` with `None` components
on a load error, and `main` returns immediately (no grouping, ordering or
rendering, no artifact) when either component is `None`; otherwise the
full pipeline runs and the ordered axes (the data embedded into the HTML
artifact) are produced.  A matrix is modelled by its `(index, columns)`
pair. -/
def mainRun (dfOpt : Option (List String × List String))
    (sensoryOpt : Option (List (Option String × Option String))) :
    List PipelineStep × Option (List String × List String) :=
  match dfOpt, sensoryOpt with
  | some df, some rows =>
    let m := sensoryMapOf rows
    let ro := recipeOrderOf tobacco_groups df.1
    let io := ingredientOrderStandalone df.2 m
    ([.grouping, .ordering, .rendering], some (ro, io))
  | _, _ => ([], none)

/-! ### Helper lemmas -/

/-- The standalone `updateHeatmap` leaves a cell visible (not the
below-threshold background) exactly when `value >= currentThreshold`. -/
lemma updateCell_ne_hidden_iff (sel : List String) (r : String) (v t : ℚ) :
    updateCell sel r v t ≠ CellRender.hiddenGray ↔ t ≤ v := by
  rw [updateCell]
  by_cases h : t ≤ v
  · simp only [if_pos h]
    refine ⟨fun _ => h, fun _ => ?_⟩
    split <;> simp
  · simp [if_neg h, h]

/-- The static mask keeps a cell exactly when its value is strictly above
the cutoff. -/
lemma staticMask_isSome_iff (t v : ℚ) :
    (staticMask t v).isSome = true ↔ t < v := by
  rw [staticMask]
  by_cases h : v ≤ t
  · simp [if_pos h, not_lt.mpr h]
  · simp [if_neg h, not_le.mp h]

/-- The recipe-ordering loop equals filtering the concatenated group
member lists by matrix membership. -/
lemma recipeOrderOf_eq_filter (groups : List (String × List String))
    (index : List String) :
    recipeOrderOf groups index
      = (groups.flatMap Prod.snd).filter fun r => decide (r ∈ index) := by
  induction groups with
  | nil => rfl
  | cons g gs ih =>
    rw [recipeOrderOf] at ih ⊢
    rw [List.flatMap_cons, List.flatMap_cons, List.filter_append, ih]

/-- The concatenation of the fixed G1–G4 member lists has no duplicates. -/
lemma tobacco_concat_nodup : (tobacco_groups.flatMap Prod.snd).Nodup := by
  decide

/-- The classifier's bucket for an ingredient is always one of the eight
dict keys. -/
lemma classify_mem_keys (m : String → Option String) (i : String) :
    classifyIngredient m i ∈ sensoryGroupKeys := by
  rw [classifyIngredient]
  split
  · assumption
  · decide

/-- Membership in a classifier output list, characterized. -/
lemma mem_sensoryGroupsOf (cols : List String) (m : String → Option String)
    (g i : String) :
    i ∈ sensoryGroupsOf cols m g ↔
      g ∈ sensoryGroupKeys ∧ i ∈ cols ∧ classifyIngredient m i = g := by
  rw [sensoryGroupsOf]
  split
  · next h => simp [List.mem_filter, h]
  · next h => simp [h]

/-- Each of the seven traversal-order group names is a dict key. -/
lemma order_subset_keys (g : String) (hg : g ∈ sensory_group_order) :
    g ∈ sensoryGroupKeys := by
  simp only [sensory_group_order, List.mem_cons, List.not_mem_nil,
    or_false] at hg
  rcases hg with rfl | rfl | rfl | rfl | rfl | rfl | rfl <;> decide

/-- Every dict key is either one of the seven traversal-order names or
`Ungrouped`. -/
lemma keys_cases (g : String) (hg : g ∈ sensoryGroupKeys) :
    g ∈ sensory_group_order ∨ g = "Ungrouped" := by
  simp only [sensoryGroupKeys, List.mem_cons, List.not_mem_nil,
    or_false] at hg
  rcases hg with rfl | rfl | rfl | rfl | rfl | rfl | rfl | rfl <;> decide

/-- An ingredient with no classification entry, or whose note is not one
of the seven named sensory groups, is bucketed to `Ungrouped`. -/
lemma classify_of_unmatched (m : String → Option String) (i : String)
    (h : m i = none ∨ ∃ note, m i = some note ∧ note ∉ sensory_group_order) :
    classifyIngredient m i = "Ungrouped" := by
  rcases h with h | ⟨note, hnote, hnot⟩
  · rw [classifyIngredient, h]
    rfl
  · rw [classifyIngredient, hnote, Option.getD_some]
    split
    · next hk =>
      rcases keys_cases _ hk with ho | he
      · exact absurd ho hnot
      · exact he
    · rfl

/-- Dict lookup distributes over append: the later assignments win. -/
lemma lookupLast_append (A B : List (String × String)) (k : String) :
    lookupLast (A ++ B) k = (lookupLast B k).or (lookupLast A k) := by
  rw [lookupLast, lookupLast, lookupLast, List.reverse_append,
    List.find?_append, Option.map_or']

/-- Dict lookup in a single-assignment list. -/
lemma lookupLast_single (a c r : String) :
    lookupLast [(a, c)] r = if a = r then some c else none := by
  by_cases h : a = r <;> simp [lookupLast, h]

/-- Dict lookup in one group's segment of assignments: the group's name
when the (matrix-present) recipe is among its members, `none` otherwise. -/
lemma lookupLast_constSnd (l : List String) (c : String) (index : List String)
    (r : String) (hr : r ∈ index) :
    lookupLast ((l.filter fun x => decide (x ∈ index)).map fun x => (x, c)) r
      = if r ∈ l then some c else none := by
  induction l with
  | nil => rfl
  | cons a l ih =>
    simp only [List.filter_cons, decide_eq_true_eq]
    by_cases ha : a ∈ index
    · rw [if_pos ha, List.map_cons,
        show ((a, c) :: (l.filter fun x => decide (x ∈ index)).map
            fun x => (x, c))
          = [(a, c)] ++ (l.filter fun x => decide (x ∈ index)).map
            fun x => (x, c) from rfl,
        lookupLast_append, ih, lookupLast_single]
      by_cases har : r ∈ l
      · simp [har, List.mem_cons, Option.or]
      · by_cases hae : a = r
        · subst hae
          simp [har, List.mem_cons, Option.or]
        · have hra : ¬ r = a := fun h => hae h.symm
          simp [har, hae, hra, List.mem_cons, Option.or]
    · have hne : ¬ r = a := fun h => ha (h ▸ hr)
      rw [if_neg ha, ih]
      by_cases har : r ∈ l <;> simp [har, hne, List.mem_cons]

/-- Dict lookup into `recipe_groups`: for a matrix-present recipe, the
last group in declaration order whose member list contains it. -/
lemma lookupLast_recipeGroupPairs (groups : List (String × List String))
    (index : List String) (r : String) (hr : r ∈ index) :
    lookupLast (recipeGroupPairs groups index) r
      = lastContainingGroup groups r := by
  induction groups with
  | nil => rfl
  | cons g gs ih =>
    rw [recipeGroupPairs] at ih
    rw [recipeGroupPairs, List.flatMap_cons, lookupLast_append, ih,
      lastContainingGroup]
    congr 1
    exact lookupLast_constSnd g.2 g.1 index r hr

/-- `recipe_order` keeps every occurrence of a matrix-present recipe in
the concatenated group lists. -/
lemma recipeOrderOf_count (groups : List (String × List String))
    (index : List String) (r : String) (hr : r ∈ index) :
    (recipeOrderOf groups index).count r
      = (groups.flatMap Prod.snd).count r := by
  rw [recipeOrderOf_eq_filter]
  exact List.count_filter (decide_eq_true hr)

/-- Re-filtering a classifier output list by matrix membership is the
identity (its members already are matrix columns). -/
lemma sensoryGroupsOf_filter_mem (cols : List String)
    (m : String → Option String) (g : String) :
    (sensoryGroupsOf cols m g).filter (fun i => decide (i ∈ cols))
      = sensoryGroupsOf cols m g := by
  apply List.filter_eq_self.mpr
  intro a ha
  rw [sensoryGroupsOf] at ha
  split at ha
  · exact decide_eq_true (List.mem_filter.mp ha).1
  · simp at ha

/-- Every `ingredient_groups` assignment records the ingredient's own
classifier bucket. -/
lemma ingredientGroupPairs_snd (cols : List String)
    (m : String → Option String) :
    ∀ p ∈ ingredientGroupPairsStandalone cols m,
      p.2 = classifyIngredient m p.1 := by
  intro p hp
  rw [ingredientGroupPairsStandalone] at hp
  rcases List.mem_append.mp hp with h | h
  · rcases List.mem_flatMap.mp h with ⟨g, hg, hpg⟩
    rcases List.mem_map.mp hpg with ⟨i, hi, rfl⟩
    have hi' : i ∈ sensoryGroupsOf cols m g := (List.mem_filter.mp hi).1
    exact ((mem_sensoryGroupsOf cols m g i).mp hi').2.2.symm
  · rcases List.mem_map.mp h with ⟨i, hi, rfl⟩
    have hi' : i ∈ sensoryGroupsOf cols m "Ungrouped" :=
      (List.mem_filter.mp hi).1
    exact ((mem_sensoryGroupsOf cols m "Ungrouped" i).mp hi').2.2.symm

/-- Every matrix column receives an `ingredient_groups` assignment. -/
lemma ingredientGroupPairs_mem (cols : List String)
    (m : String → Option String) (i : String) (hi : i ∈ cols) :
    (i, classifyIngredient m i) ∈ ingredientGroupPairsStandalone cols m := by
  have hkeys := classify_mem_keys m i
  have hsg : i ∈ sensoryGroupsOf cols m (classifyIngredient m i) :=
    (mem_sensoryGroupsOf cols m _ i).mpr ⟨hkeys, hi, rfl⟩
  have hfilter : i ∈ (sensoryGroupsOf cols m
      (classifyIngredient m i)).filter (fun j => decide (j ∈ cols)) :=
    List.mem_filter.mpr ⟨hsg, decide_eq_true hi⟩
  rw [ingredientGroupPairsStandalone]
  rcases keys_cases _ hkeys with hord | hung
  · exact List.mem_append.mpr (Or.inl (List.mem_flatMap.mpr
      ⟨_, hord, List.mem_map.mpr ⟨i, hfilter, rfl⟩⟩))
  · refine List.mem_append.mpr (Or.inr ?_)
    rw [hung] at hfilter ⊢
    exact List.mem_map.mpr ⟨i, hfilter, rfl⟩

/-- Dict lookup into `ingredient_groups` yields the classifier bucket of
any matrix column. -/
lemma lookupLast_ingredientGroupPairs (cols : List String)
    (m : String → Option String) (i : String) (hi : i ∈ cols) :
    lookupLast (ingredientGroupPairsStandalone cols m) i
      = some (classifyIngredient m i) := by
  rw [lookupLast]
  have hmem : (i, classifyIngredient m i)
      ∈ (ingredientGroupPairsStandalone cols m).reverse :=
    List.mem_reverse.mpr (ingredientGroupPairs_mem cols m i hi)
  have hex : ((ingredientGroupPairsStandalone cols m).reverse.find?
      fun p => decide (p.1 = i)).isSome := by
    rw [List.find?_isSome]
    exact ⟨_, hmem, by simp⟩
  obtain ⟨p₀, hp₀⟩ := Option.isSome_iff_exists.mp hex
  have hfind := List.find?_some hp₀
  have hpred : p₀.1 = i := of_decide_eq_true hfind
  have hp₀mem : p₀ ∈ ingredientGroupPairsStandalone cols m :=
    List.mem_reverse.mp (List.mem_of_find?_eq_some hp₀)
  have hsnd := ingredientGroupPairs_snd cols m p₀ hp₀mem
  rw [hp₀]
  simp [hsnd, hpred]

/-- The behaviour of `getColor` on the exact top of the clamped range. -/
lemma rampColor_one (o : ℚ) : rampColor 1 o = ⟨253, 231, 37, o⟩ := by
  norm_num [rampColor, viridisColors, List.getD]
  decide

/-! ### Claim theorems -/

/-- C1: the standalone interactive renderer shows a cell iff its value is
at least the threshold (inclusive, `value >= currentThreshold`), while
the static plot masks a cell unless its value strictly exceeds the
cutoff (exclusive, `df_display <= 0.45` set to NaN); in particular a
value of exactly 0.45 is visible at inclusive threshold 0.45 and hidden
under the static exclusive cutoff 0.45, so the two policies are
distinct. -/
theorem threshold_filter_policies :
    (∀ (sel : List String) (r : String) (v t : ℚ),
        updateCell sel r v t ≠ CellRender.hiddenGray ↔ t ≤ v) ∧
    (∀ t v : ℚ, (staticMask t v).isSome = true ↔ t < v) ∧
    updateCell [] "R" 0.45 0.45 ≠ CellRender.hiddenGray ∧
    staticDisplayCell 0.45 = none := by
  refine ⟨updateCell_ne_hidden_iff, staticMask_isSome_iff, ?_, ?_⟩
  · exact (updateCell_ne_hidden_iff [] "R" 0.45 0.45).mpr le_rfl
  · norm_num [staticDisplayCell, staticMask, staticThreshold]

/-- C7: lowering the threshold only reveals cells — for t1 < t2, every
cell visible at t2 (under the inclusive interactive policy or the
exclusive static-mask policy) is visible at t1. -/
theorem threshold_visibility_monotone (t1 t2 v : ℚ) (sel : List String)
    (r : String) (h : t1 < t2) :
    (updateCell sel r v t2 ≠ CellRender.hiddenGray →
        updateCell sel r v t1 ≠ CellRender.hiddenGray) ∧
    ((staticMask t2 v).isSome = true → (staticMask t1 v).isSome = true) := by
  constructor
  · intro h2
    exact (updateCell_ne_hidden_iff sel r v t1).mpr
      (le_trans (le_of_lt h) ((updateCell_ne_hidden_iff sel r v t2).mp h2))
  · intro h2
    exact (staticMask_isSome_iff t1 v).mpr
      (lt_trans h ((staticMask_isSome_iff t2 v).mp h2))

/-- Witness for C7 at t1 = 0.4, t2 = 0.45, v = 0.5. -/
theorem threshold_visibility_monotone_witness :
    (updateCell [] "R" 0.5 0.45 ≠ CellRender.hiddenGray →
        updateCell [] "R" 0.5 0.4 ≠ CellRender.hiddenGray) ∧
    ((staticMask 0.45 0.5).isSome = true →
        (staticMask 0.4 0.5).isSome = true) :=
  threshold_visibility_monotone 0.4 0.45 0.5 [] "R" (by norm_num)

/-- C2 counterexample: for a matrix whose single column "X" has no
classification entry, `order_data_by_groups` in
`tobacco_heatmap_FINAL.py` produces an empty `ingredient_order`, while
the eight-group concatenation described by the spec contains "X" — so
that variant drops Ungrouped members instead of appending them. -/
theorem final_variant_drops_ungrouped :
    ingredientOrderFinal ["X"] (fun _ => none) = [] ∧
    ingredientOrderSpec ["X"] (fun _ => none) = ["X"] :=
  ⟨by decide, by decide⟩

/-- C2 amended: the standalone variant's `organize_data` builds exactly
the spec's eight-group concatenation, with the Ungrouped members at the
end; `order_data_by_groups` in `tobacco_heatmap_FINAL.py` builds only the
seven named groups' concatenation, so its order is the standalone order
with the Ungrouped tail removed. -/
theorem ingredient_order_variants (cols : List String)
    (m : String → Option String) :
    ingredientOrderStandalone cols m = ingredientOrderSpec cols m ∧
    ingredientOrderStandalone cols m
      = ingredientOrderFinal cols m ++ sensoryGroupsOf cols m "Ungrouped" := by
  constructor
  · rw [ingredientOrderStandalone, ingredientOrderSpec, List.flatMap_append]
    simp only [sensoryGroupsOf_filter_mem]
    simp [List.flatMap_cons, List.flatMap_nil]
  · rw [ingredientOrderStandalone, ingredientOrderFinal]
    simp only [sensoryGroupsOf_filter_mem]

/-- C3 counterexample: `getColor` maps value 0.0 to the neutral
background, not to the first stop (68, 1, 84); and it maps value 0.5 to
(33, 144, 141), not to the midpoint (46, 113, 140) of stops 2 and 3. -/
theorem getColor_boundary_counterexample :
    getColor (some 0) 1 = backgroundColor 1 ∧
    getColor (some 0) 1 ≠ ⟨68, 1, 84, 1⟩ ∧
    getColor (some (1 / 2)) 1 ≠ ⟨46, 113, 140, 1⟩ := by
  refine ⟨by decide, by decide, ?_⟩
  have h : getColor (some (1 / 2)) 1 = ⟨33, 144, 141, 1⟩ := by
    norm_num [getColor, rampColor, viridisColors, List.getD]
    decide
  rw [h]
  decide

/-- C3 amended: on the renderer's color function, value 0.0 yields the
neutral background (240, 240, 240) because of the `value <= 0` guard;
value 1.0 yields the last stop (253, 231, 37); and value 0.5 lands
exactly on the middle stop, yielding (33, 144, 141) with no
interpolation. -/
theorem getColor_boundary_actual :
    getColor (some 0) 1 = backgroundColor 1 ∧
    getColor (some 1) 1 = ⟨253, 231, 37, 1⟩ ∧
    getColor (some (1 / 2)) 1 = ⟨33, 144, 141, 1⟩ := by
  refine ⟨by decide, ?_, ?_⟩
  · norm_num [getColor, rampColor, viridisColors, List.getD]
    decide
  · norm_num [getColor, rampColor, viridisColors, List.getD]
    decide

/-- C4 counterexample: `create_interactive_heatmap` is an interactive
variant whose hard-coded cutoff is 0.45, not 0.4 — so not every
interactive variant starts with default threshold 0.4. -/
theorem variant_default_counterexample :
    isInteractive Variant.plotlyInteractive = true ∧
    defaultCutoff Variant.plotlyInteractive ≠ 0.4 := by
  refine ⟨rfl, ?_⟩
  norm_num [defaultCutoff, staticThreshold]

/-- C4 amended: the standalone interactive page defaults to threshold
0.4; the static plot and the Plotly interactive variant use the cutoff
0.45; the Dash figure shows values above 0.  The defaults are independent
per-variant constants, not one unified value (0.4 differs from 0.45). -/
theorem variant_default_cutoffs :
    defaultCutoff Variant.standaloneHtml = 0.4 ∧
    defaultCutoff Variant.staticPng = 0.45 ∧
    defaultCutoff Variant.plotlyInteractive = 0.45 ∧
    defaultCutoff Variant.dashFigure = 0 ∧
    defaultCutoff Variant.standaloneHtml ≠ defaultCutoff Variant.staticPng := by
  norm_num [defaultCutoff, staticThreshold, currentThresholdInit]

/-- C5: with the fixed G1–G4 tables, `recipe_order` never contains a
duplicate and is a subsequence of the concatenation of the group member
lists in declared order, for every matrix index; and in the spec's
scenario (recipes A and B in the matrix, only A listed, in a group
["A"]), the order is exactly ["A"] — B is excluded. -/
theorem recipe_order_nodup_subseq :
    (∀ index : List String,
        (recipeOrderOf tobacco_groups index).Nodup ∧
        List.Sublist (recipeOrderOf tobacco_groups index)
          (tobacco_groups.flatMap Prod.snd)) ∧
    recipeOrderOf [("G1", ["A"])] ["A", "B"] = ["A"] := by
  refine ⟨fun index => ?_, by decide⟩
  rw [recipeOrderOf_eq_filter]
  exact ⟨tobacco_concat_nodup.filter _, List.filter_sublist _⟩

/-- C6: every ingredient appearing as a matrix column lands in exactly
one sensory group's list, and an ingredient with no classification entry,
or whose note is not one of the seven named sensory groups, is bucketed
to Ungrouped: the `ingredient_groups` lookup yields "Ungrouped" for it. -/
theorem ingredient_in_exactly_one_group (cols : List String)
    (m : String → Option String) (i : String) (hi : i ∈ cols) :
    (∃! g, g ∈ sensoryGroupKeys ∧ i ∈ sensoryGroupsOf cols m g) ∧
    ((m i = none ∨ ∃ note, m i = some note ∧ note ∉ sensory_group_order) →
      lookupLast (ingredientGroupPairsStandalone cols m) i
        = some "Ungrouped") := by
  constructor
  · refine ⟨classifyIngredient m i,
      ⟨classify_mem_keys m i,
        (mem_sensoryGroupsOf cols m _ i).mpr ⟨classify_mem_keys m i, hi, rfl⟩⟩,
      ?_⟩
    rintro g ⟨_, hmem⟩
    exact ((mem_sensoryGroupsOf cols m g i).mp hmem).2.2.symm
  · intro hun
    rw [lookupLast_ingredientGroupPairs cols m i hi,
      classify_of_unmatched m i hun]

/-- Witness for C6: the single-column matrix ["X"], once with an empty
classification map (no entry) and once with the unrecognized note
"Fruity"; both lookups yield "Ungrouped". -/
theorem ingredient_in_exactly_one_group_witness :
    (∃! g, g ∈ sensoryGroupKeys ∧
        "X" ∈ sensoryGroupsOf ["X"] (fun _ => none) g) ∧
    lookupLast (ingredientGroupPairsStandalone ["X"] (fun _ => none)) "X"
      = some "Ungrouped" ∧
    lookupLast
        (ingredientGroupPairsStandalone ["X"] (fun _ => some "Fruity")) "X"
      = some "Ungrouped" :=
  ⟨(ingredient_in_exactly_one_group ["X"] (fun _ => none) "X" (by decide)).1,
   (ingredient_in_exactly_one_group ["X"] (fun _ => none) "X"
      (by decide)).2 (Or.inl rfl),
   (ingredient_in_exactly_one_group ["X"] (fun _ => some "Fruity") "X"
      (by decide)).2 (Or.inr ⟨"Fruity", rfl, by decide⟩)⟩

/-- C8: if loading either spreadsheet fails (a `None` component from
`load_and_process_data`), `main` aborts immediately: no pipeline step
runs and no artifact is produced. -/
theorem load_failure_aborts (dfOpt : Option (List String × List String))
    (sensoryOpt : Option (List (Option String × Option String)))
    (h : dfOpt = none ∨ sensoryOpt = none) :
    mainRun dfOpt sensoryOpt = ([], none) := by
  rcases h with rfl | rfl
  · cases sensoryOpt <;> rfl
  · cases dfOpt <;> rfl

/-- Witness for C8: a failed main-data load with a successfully loaded
classification table. -/
theorem load_failure_aborts_witness :
    mainRun none (some []) = ([], none) :=
  load_failure_aborts none (some []) (Or.inl rfl)

/-- C9: `getColor` returns the neutral background rgba(240, 240, 240)
for NaN and for every value at most 0 — value exactly 0.0 never gets a
ramp color — and its clamp sends every value at least 1 to the last stop
(253, 231, 37). -/
theorem getColor_guard_and_clamp (v o : ℚ) :
    getColor none o = backgroundColor o ∧
    (v ≤ 0 → getColor (some v) o = backgroundColor o) ∧
    (1 ≤ v → getColor (some v) o = ⟨253, 231, 37, o⟩) := by
  refine ⟨rfl, fun h => by simp only [getColor, if_pos h], fun h => ?_⟩
  have h0 : ¬ v ≤ 0 := by linarith
  have hmax : max v 0 = v := max_eq_left (by linarith)
  have hmin : min v 1 = 1 := min_eq_right h
  simp only [getColor, if_neg h0, hmax, hmin]
  exact rampColor_one o

/-- Witness for C9 at v = -1 (guard) and v = 2 (clamp). -/
theorem getColor_guard_and_clamp_witness :
    getColor (some (-1)) 1 = backgroundColor 1 ∧
    getColor (some 2) 1 = ⟨253, 231, 37, 1⟩ :=
  ⟨(getColor_guard_and_clamp (-1) 1).2.1 (by norm_num),
   (getColor_guard_and_clamp 2 1).2.2 (by norm_num)⟩

/-- C10: for every group table and matrix, a matrix-present recipe is
appended to `recipe_order` once per occurrence in the concatenated group
member lists (count preservation), so more than one occurrence produces
duplicates; its `recipe_groups` entry is the last containing group in
declaration order; and `recipe_order` is duplicate-free whenever the
concatenated group lists are (pairwise-disjoint precondition).  The
concrete instance [("Ga", ["A"]), ("Gb", ["A"])] with matrix ["A"]
exhibits the duplicate and the last-group entry "Gb". -/
theorem recipe_order_duplicate_behavior :
    (∀ (groups : List (String × List String)) (index : List String)
        (r : String), r ∈ index →
        (recipeOrderOf groups index).count r
          = (groups.flatMap Prod.snd).count r) ∧
    (∀ (groups : List (String × List String)) (index : List String)
        (r : String), r ∈ index → 1 < (groups.flatMap Prod.snd).count r →
        ¬ (recipeOrderOf groups index).Nodup) ∧
    (∀ (groups : List (String × List String)) (index : List String)
        (r : String), r ∈ index →
        lookupLast (recipeGroupPairs groups index) r
          = lastContainingGroup groups r) ∧
    (∀ (groups : List (String × List String)) (index : List String),
        (groups.flatMap Prod.snd).Nodup →
        (recipeOrderOf groups index).Nodup) ∧
    recipeOrderOf [("Ga", ["A"]), ("Gb", ["A"])] ["A"] = ["A", "A"] ∧
    lookupLast (recipeGroupPairs [("Ga", ["A"]), ("Gb", ["A"])] ["A"]) "A"
      = some "Gb" ∧
    lastContainingGroup [("Ga", ["A"]), ("Gb", ["A"])] "A" = some "Gb" := by
  refine ⟨recipeOrderOf_count, fun groups index r hr hc hn => ?_,
    lookupLast_recipeGroupPairs, fun groups index h => ?_,
    by decide, by decide, by decide⟩
  · have hcount := recipeOrderOf_count groups index r hr
    have hle := List.nodup_iff_count_le_one.mp hn r
    omega
  · rw [recipeOrderOf_eq_filter]
    exact h.filter _

/-- Witness for C10: the duplicate-producing instance and a disjoint
instance, both discharged through the general parts. -/
theorem recipe_order_duplicate_behavior_witness :
    ¬ (recipeOrderOf [("Ga", ["A"]), ("Gb", ["A"])] ["A"]).Nodup ∧
    (recipeOrderOf [("G1", ["A"])] ["A"]).Nodup :=
  ⟨recipe_order_duplicate_behavior.2.1 [("Ga", ["A"]), ("Gb", ["A"])] ["A"]
      "A" (by decide) (by decide),
   recipe_order_duplicate_behavior.2.2.2.1 [("G1", ["A"])] ["A"] (by decide)⟩

end TobaccoHeatmap
